import Mathlib

/-!
# Verification of the MORF job-orchestration core

A shallow embedding, in Lean 4, of the naming, cataloguing, configuration and
dispatch logic of the MORF batch-job orchestrator
(`morf-python-api/build/lib/morf/utils` and `morf-python-api/morf`), together
with proofs and refutations of the behavioural claims made by its
specification.

Python exceptions are modelled by an explicit error type carried in `Except`;
machine-level side effects (the local filesystem, the S3 upload outcome) are
modelled by explicit state passing.  Each Lean definition mirrors one Python
function of the repository and keeps its name.
-/

/-- The Python exceptions raised by the modelled code paths. -/
inductive PyError where
  | assertionError (msg : String)
  | indexError (msg : String)
  | notImplementedError (msg : String)
  | noSectionError (msg : String)
  | runtimeError (msg : String)
  | attributeError (msg : String)
  | valueError (msg : String)
  deriving DecidableEq, Repr

instance {ε α : Type} [DecidableEq ε] [DecidableEq α] : DecidableEq (Except ε α) := fun a b =>
  match a, b with
  | .error e₁, .error e₂ =>
    if h : e₁ = e₂ then .isTrue (by rw [h]) else .isFalse (by intro hc; cases hc; exact h rfl)
  | .ok v₁, .ok v₂ =>
    if h : v₁ = v₂ then .isTrue (by rw [h]) else .isFalse (by intro hc; cases hc; exact h rfl)
  | .error _, .ok _ => .isFalse (by intro hc; cases hc)
  | .ok _, .error _ => .isFalse (by intro hc; cases hc)

/-! ## Session catalogue: `fetch_sessions` (utils/__init__.py, lines 194-220)

`sessions = sorted(sessions, key=lambda x: x[-3:])` sorts the session listing
by the string of its last three characters (Python slicing: the whole string
when it is shorter), with the stable sort of Python.  We model the listing itself
(the result of the S3 `list_objects` call) as an input list of session names.
-/

/-- Lexicographic comparison of character lists by code point, the order in
which Python compares the strings used as sort keys. -/
def charListLe : List Char → List Char → Bool
  | [], _ => true
  | _ :: _, [] => false
  | a :: as, b :: bs =>
    if a.toNat < b.toNat then true
    else if b.toNat < a.toNat then false
    else charListLe as bs

theorem charListLe_total : ∀ a b, charListLe a b = true ∨ charListLe b a = true := by
  intro a
  induction a with
  | nil => intro b; left; rfl
  | cons x xs ih =>
    intro b
    cases b with
    | nil => right; rfl
    | cons y ys =>
      simp only [charListLe]
      rcases Nat.lt_trichotomy x.toNat y.toNat with h | h | h
      · left; simp [h]
      · have h1 : ¬ x.toNat < y.toNat := by omega
        have h2 : ¬ y.toNat < x.toNat := by omega
        rcases ih ys with hc | hc
        · left; simp [h1, h2, hc]
        · right; simp [h1, h2, hc]
      · right; simp [h]

theorem charListLe_head : ∀ (x y : Char) (xs ys : List Char),
    charListLe (x :: xs) (y :: ys) = true → x.toNat ≤ y.toNat := by
  intro x y xs ys h
  simp only [charListLe] at h
  by_cases hxy : x.toNat < y.toNat
  · omega
  · by_cases hyx : y.toNat < x.toNat
    · simp [hxy, hyx] at h
    · omega

theorem charListLe_trans : ∀ a b c, charListLe a b = true → charListLe b c = true →
    charListLe a c = true := by
  intro a
  induction a with
  | nil => intro b c _ _; rfl
  | cons x xs ih =>
    intro b c hab hbc
    cases b with
    | nil => simp [charListLe] at hab
    | cons y ys =>
      cases c with
      | nil => simp [charListLe] at hbc
      | cons z zs =>
        have h1 := charListLe_head x y xs ys hab
        have h2 := charListLe_head y z ys zs hbc
        simp only [charListLe] at hab hbc ⊢
        by_cases hxz : x.toNat < z.toNat
        · simp [hxz]
        · have hxz' : x.toNat = z.toNat := by omega
          have hxy' : x.toNat = y.toNat := by omega
          have h3 : ¬ z.toNat < x.toNat := by omega
          simp only [if_neg hxz, if_neg h3]
          have h4 : ¬ x.toNat < y.toNat := by omega
          have h5 : ¬ y.toNat < x.toNat := by omega
          have h6 : ¬ y.toNat < z.toNat := by omega
          have h7 : ¬ z.toNat < y.toNat := by omega
          simp only [if_neg h4, if_neg h5] at hab
          simp only [if_neg h6, if_neg h7] at hbc
          exact ih ys zs hab hbc

/-- Python `x[-3:]`: the last three characters of a string (the whole string
when it has fewer than three). -/
def sessionKey (s : String) : List Char :=
  s.data.drop (s.data.length - 3)

/-- The comparison used by `sorted(sessions, key=lambda x: x[-3:])`: keys are
the last three characters, compared as Python compares strings. -/
def sessionLe (a b : String) : Prop :=
  charListLe (sessionKey a) (sessionKey b) = true

instance : DecidableRel sessionLe := fun a b =>
  inferInstanceAs (Decidable (charListLe (sessionKey a) (sessionKey b) = true))

instance : IsTotal String sessionLe :=
  ⟨fun a b => charListLe_total (sessionKey a) (sessionKey b)⟩

instance : IsTrans String sessionLe :=
  ⟨fun _ _ _ h₁ h₂ => charListLe_trans _ _ _ h₁ h₂⟩

/-- `fetch_sessions(job_config, data_bucket, data_dir, course,
fetch_holdout_session_only, fetch_all_sessions)`, with the S3 listing of the
session subdirectories of the course passed in as `sessions`.  The function first
asserts that at most one of the two flags is set, then sorts the listing
stably by `sessionKey`; it returns the whole sorted list when
`fetch_all_sessions`, otherwise pops the last element (`sessions.pop(-1)`,
raising `IndexError` on an empty list) and returns either just that holdout
session or the remaining training sessions. -/
def fetch_sessions (sessions : List String)
    (fetch_holdout_session_only fetch_all_sessions : Bool) :
    Except PyError (List String) :=
  if fetch_holdout_session_only && fetch_all_sessions then
    .error (.assertionError "choose one - fetch holdout sessions or fetch all sessions")
  else
    let sorted := List.insertionSort sessionLe sessions
    if fetch_all_sessions then
      .ok sorted
    else
      match sorted.getLast? with
      | none => .error (.indexError "pop from empty list")
      | some holdout_session =>
        if fetch_holdout_session_only then
          .ok [holdout_session]
        else
          .ok sorted.dropLast

/-- C3 counterexample: on the session listing `["2018-001","2018-002","2019-001"]` the
holdout request returns `["2018-002"]`, not `["2019-001"]` as the claim states, and the
training request returns `["2018-001","2019-001"]`, not `["2018-001","2018-002"]`:
sorting on the last three characters puts `"2019-001"` (key `"001"`) before
`"2018-002"` (key `"002"`). -/
theorem fetch_sessions_example_divergence :
    fetch_sessions ["2018-001", "2018-002", "2019-001"] true false ≠ .ok ["2019-001"] ∧
    fetch_sessions ["2018-001", "2018-002", "2019-001"] false false ≠
      .ok ["2018-001", "2018-002"] ∧
    fetch_sessions ["2018-001", "2018-002", "2019-001"] true false = .ok ["2018-002"] ∧
    fetch_sessions ["2018-001", "2018-002", "2019-001"] false false =
      .ok ["2018-001", "2019-001"] := by
  decide

/-- Shared description of the three return shapes of `fetch_sessions` once the sorted
listing is decomposed into its initial part and its final (holdout) element. -/
theorem fetch_sessions_parts (sessions l : List String) (x : String)
    (h : List.insertionSort sessionLe sessions = l ++ [x]) :
    fetch_sessions sessions false true = .ok (l ++ [x]) ∧
    fetch_sessions sessions true false = .ok [x] ∧
    fetch_sessions sessions false false = .ok l := by
  refine ⟨?_, ?_, ?_⟩
  · simp only [fetch_sessions, h]
    rfl
  · simp only [fetch_sessions, h, List.getLast?_concat]
    rfl
  · simp only [fetch_sessions, h, List.getLast?_concat, List.dropLast_concat]
    rfl

/-- C3 (amended): `fetch_sessions` stably sorts the listed sessions ascending by their
last three characters; `fetch_all_sessions` returns the whole sorted sequence, the
default returns all but the last element, and `fetch_holdout_session_only` returns
exactly the last element; the output is sorted by `sessionLe` and is a permutation of
the listing.  On the listing `["2018-001","2018-002","2019-001"]` the holdout is
`"2018-002"` and the training sessions are `["2018-001","2019-001"]`; `"2012-010"`
sorts strictly after `"2012-002"`. -/
theorem fetch_sessions_ordering (sessions l : List String) (x : String)
    (h : List.insertionSort sessionLe sessions = l ++ [x]) :
    fetch_sessions sessions false true = .ok (l ++ [x]) ∧
    fetch_sessions sessions true false = .ok [x] ∧
    fetch_sessions sessions false false = .ok l ∧
    List.Sorted sessionLe (l ++ [x]) ∧
    (l ++ [x]).Perm sessions ∧
    sessionLe "2012-002" "2012-010" ∧
    ¬ sessionLe "2012-010" "2012-002" := by
  obtain ⟨h₁, h₂, h₃⟩ := fetch_sessions_parts sessions l x h
  refine ⟨h₁, h₂, h₃, ?_, ?_, by decide, by decide⟩
  · rw [← h]; exact List.sorted_insertionSort sessionLe sessions
  · rw [← h]; exact List.perm_insertionSort sessionLe sessions

/-- Witness for `fetch_sessions_ordering` at the example listing given in the specification. -/
theorem fetch_sessions_ordering_witness :
    fetch_sessions ["2018-001", "2018-002", "2019-001"] true false = .ok ["2018-002"] :=
  (fetch_sessions_ordering ["2018-001", "2018-002", "2019-001"]
    ["2018-001", "2019-001"] "2018-002" (by decide)).2.1

/-- C10: `fetch_sessions` with both `fetch_holdout_session_only` and
`fetch_all_sessions` set raises `AssertionError` (the assert is the first statement,
before any listing is consumed); with at most one flag set, no `AssertionError` is ever
raised. -/
theorem fetch_sessions_flag_exclusivity :
    (∀ sessions : List String, fetch_sessions sessions true true =
      .error (.assertionError "choose one - fetch holdout sessions or fetch all sessions")) ∧
    (∀ (sessions : List String) (a b : Bool) (m : String), ¬(a = true ∧ b = true) →
      fetch_sessions sessions a b ≠ .error (.assertionError m)) := by
  constructor
  · intro sessions; rfl
  · intro sessions a b m hab
    have hfalse : (a && b) = false := by
      cases a <;> cases b <;> simp_all
    simp only [fetch_sessions, hfalse, Bool.false_eq_true, if_false]
    cases hb : b
    · cases hl : (List.insertionSort sessionLe sessions).getLast? <;> cases a <;> simp [hl]
    · simp

/-- Witness for `fetch_sessions_flag_exclusivity`: with only the holdout flag set on a
one-session listing, no assertion error is raised. -/
theorem fetch_sessions_flag_exclusivity_witness :
    fetch_sessions ["001"] true false ≠ .error (.assertionError "m") :=
  fetch_sessions_flag_exclusivity.2 ["001"] true false "m" (by simp)

/-! ## Derived names: `make_s3_key_path` (s3interface.py, lines 108-125) and
`generate_archive_filename` (utils/__init__.py, lines 734-751)

Both functions read `user_id`, `job_id` and `mode` from the `MorfJobConfig`
object, allow `mode` and `job_id` to be overridden by arguments (Python tests
the overrides with `if not mode` / `if not job_id`, so an empty string behaves
like `None`), build the attribute list in a fixed order, drop the entries that
are `None`, and join.  The job-configuration slice they consume is modelled by
`MorfJob`; `mode` is an `Option` because `MorfJobConfig.__init__` sets it to
`None` and it is only filled in by `update_mode`.
-/

/-- The slice of `MorfJobConfig` that the naming functions read. -/
structure MorfJob where
  user_id : String
  job_id : String
  mode : Option String
  deriving DecidableEq, Repr

/-- Python truthiness of an optional string: `None` and `""` are falsy. -/
def pyTruthy : Option String → Bool
  | none => false
  | some s => !s.isEmpty

/-- Python `sep.join(l)`. -/
def pyJoin (sep : String) : List String → String
  | [] => ""
  | [x] => x
  | x :: y :: xs => x ++ sep ++ pyJoin sep (y :: xs)

/-- `if not mode: mode = job_config.mode`. -/
def resolve_mode (job_config : MorfJob) (mode : Option String) : Option String :=
  if pyTruthy mode then mode else job_config.mode

/-- `if not job_id: job_id = job_config.job_id`. -/
def resolve_job_id (job_config : MorfJob) (job_id : Option String) : String :=
  match job_id with
  | some s => if s.isEmpty then job_config.job_id else s
  | none => job_config.job_id

/-- The core of `make_s3_key_path` after the two overrides are resolved:
`job_attributes = [user_id, job_id, mode, course, session, filename]`,
`active_attributes = [x for x in job_attributes if x is not None]`,
`key = "/".join(active_attributes)`. -/
def job_attributes_key (user_id job_id : String)
    (mode course session filename : Option String) : String :=
  pyJoin "/" (([some user_id, some job_id, mode, course, session, filename] :
    List (Option String)).filterMap id)

/-- `make_s3_key_path(job_config, course, filename, session, mode, job_id)`. -/
def make_s3_key_path (job_config : MorfJob)
    (course filename session mode job_id : Option String) : String :=
  job_attributes_key job_config.user_id (resolve_job_id job_config job_id)
    (resolve_mode job_config mode) course session filename

/-- The core of `generate_archive_filename` after the overrides are resolved:
`'-'.join(active_attributes) + "." + extension` over
`[user_id, job_id, mode, course, session]`. -/
def archive_attributes_name (user_id job_id : String)
    (mode course session : Option String) (extension : String) : String :=
  pyJoin "-" (([some user_id, some job_id, mode, course, session] :
    List (Option String)).filterMap id) ++ "." ++ extension

/-- `generate_archive_filename(job_config, course, session, extension, mode, job_id)`. -/
def generate_archive_filename (job_config : MorfJob)
    (course session : Option String) (extension : String)
    (mode job_id : Option String) : String :=
  archive_attributes_name job_config.user_id (resolve_job_id job_config job_id)
    (resolve_mode job_config mode) course session extension

/-- The StorageKey derivation exactly as the claim words it: the components
user_id, job_id, mode, course, session, filename in that fixed order, omitting
every component that is unset (`None`), with mode and job_id taken from the
override arguments when supplied (non-`None`) and from the job configuration
otherwise, joined by `"/"`. -/
def storage_key_spec (job_config : MorfJob)
    (course filename session mode job_id : Option String) : String :=
  let m : Option String :=
    match mode with
    | some s => some s
    | none => job_config.mode
  let j : String :=
    match job_id with
    | some s => s
    | none => job_config.job_id
  String.intercalate "/" (([some job_config.user_id, some j, m, course, session, filename] :
    List (Option String)).filterMap id)

/-- The StorageKey derivation as amended: an override is used only when it is
supplied and non-empty (a `None` or empty-string override falls back to the
job configuration); everything else as in `storage_key_spec`. -/
def storage_key_spec_amended (job_config : MorfJob)
    (course filename session mode job_id : Option String) : String :=
  let m : Option String :=
    match mode with
    | some s => if s = "" then job_config.mode else some s
    | none => job_config.mode
  let j : String :=
    match job_id with
    | some s => if s = "" then job_config.job_id else s
    | none => job_config.job_id
  String.intercalate "/" (([some job_config.user_id, some j, m, course, session, filename] :
    List (Option String)).filterMap id)

/-- The ArchiveFilename derivation as the spec words it — user_id, job_id, mode,
optional course and optional session, hyphen-joined, followed by a dot and the
extension, with the same omission rule as the StorageKey — under the amended override
rule (supplied and non-empty). -/
def archive_filename_spec_amended (job_config : MorfJob)
    (course session : Option String) (extension : String)
    (mode job_id : Option String) : String :=
  let m : Option String :=
    match mode with
    | some s => if s = "" then job_config.mode else some s
    | none => job_config.mode
  let j : String :=
    match job_id with
    | some s => if s = "" then job_config.job_id else s
    | none => job_config.job_id
  String.intercalate "-" (([some job_config.user_id, some j, m, course, session] :
    List (Option String)).filterMap id) ++ "." ++ extension

/-! ### Joining machinery: relating `pyJoin` to `String.intercalate`, and
injectivity of separator-joins on separator-free components. -/

theorem intercalate_go_cons (sep : String) :
    ∀ (ys : List String) (x y : String),
      String.intercalate.go x sep (y :: ys) = x ++ sep ++ String.intercalate.go y sep ys := by
  intro ys
  induction ys with
  | nil => intro x y; rfl
  | cons z zs ih =>
    intro x y
    show String.intercalate.go (x ++ sep ++ y) sep (z :: zs) = _
    rw [ih (x ++ sep ++ y) z, ih y z]
    simp [String.append_assoc]

theorem pyJoin_eq_intercalate (sep : String) :
    ∀ l, pyJoin sep l = String.intercalate sep l := by
  intro l
  cases l with
  | nil => rfl
  | cons x xs =>
    induction xs generalizing x with
    | nil => rfl
    | cons y ys ih =>
      show x ++ sep ++ pyJoin sep (y :: ys) = _
      rw [ih y]
      show _ = String.intercalate.go x sep (y :: ys)
      rw [intercalate_go_cons]
      rfl

/-- `pyJoin` at the level of character lists, for a one-character separator. -/
def charJoin (sep : Char) : List (List Char) → List Char
  | [] => []
  | [x] => x
  | x :: y :: xs => x ++ sep :: charJoin sep (y :: xs)

theorem pyJoin_data (sep : Char) :
    ∀ l, (pyJoin ⟨[sep]⟩ l).data = charJoin sep (l.map String.data) := by
  intro l
  cases l with
  | nil => rfl
  | cons x xs =>
    induction xs generalizing x with
    | nil => rfl
    | cons y ys ih =>
      show (x ++ ⟨[sep]⟩ ++ pyJoin ⟨[sep]⟩ (y :: ys)).data = _
      rw [String.data_append, String.data_append, ih y]
      simp [charJoin, List.append_assoc]

theorem append_sep_cons_inj (sep : Char) :
    ∀ (a b r₁ r₂ : List Char), sep ∉ a → sep ∉ b →
      a ++ sep :: r₁ = b ++ sep :: r₂ → a = b ∧ r₁ = r₂ := by
  intro a
  induction a with
  | nil =>
    intro b r₁ r₂ _ hb h
    cases b with
    | nil => simpa using h
    | cons c cs =>
      exfalso
      have hc : sep = c := by simpa using congrArg (fun l => l.head?) h
      exact hb (hc ▸ List.mem_cons_self c cs)
  | cons x xs ih =>
    intro b r₁ r₂ ha hb h
    cases b with
    | nil =>
      exfalso
      have hc : x = sep := by simpa using congrArg (fun l => l.head?) h
      exact ha (hc ▸ List.mem_cons_self x xs)
    | cons c cs =>
      have hx : x = c := by simpa using congrArg (fun l => l.head?) h
      have htail : xs ++ sep :: r₁ = cs ++ sep :: r₂ := by
        have := congrArg List.tail h
        simpa using this
      have ha' : sep ∉ xs := fun hm => ha (List.mem_cons_of_mem x hm)
      have hb' : sep ∉ cs := fun hm => hb (List.mem_cons_of_mem c hm)
      rcases ih cs r₁ r₂ ha' hb' htail with ⟨h₁, h₂⟩
      exact ⟨by rw [hx, h₁], h₂⟩

theorem charJoin_inj (sep : Char) :
    ∀ (l₁ l₂ : List (List Char)), l₁.length = l₂.length →
      (∀ x ∈ l₁, sep ∉ x) → (∀ x ∈ l₂, sep ∉ x) →
      charJoin sep l₁ = charJoin sep l₂ → l₁ = l₂ := by
  intro l₁
  induction l₁ with
  | nil =>
    intro l₂ hlen _ _ _
    cases l₂ with
    | nil => rfl
    | cons y ys => simp at hlen
  | cons x xs ih =>
    intro l₂ hlen h₁ h₂ hj
    cases l₂ with
    | nil => simp at hlen
    | cons y ys =>
      cases xs with
      | nil =>
        cases ys with
        | nil => simpa [charJoin] using hj
        | cons z zs => simp at hlen
      | cons x' xs' =>
        cases ys with
        | nil => simp at hlen
        | cons y' ys' =>
          simp only [charJoin] at hj
          have hx : sep ∉ x := h₁ x (List.mem_cons_self x _)
          have hy : sep ∉ y := h₂ y (List.mem_cons_self y _)
          rcases append_sep_cons_inj sep x y _ _ hx hy hj with ⟨hxy, hrest⟩
          have hlen' : (x' :: xs').length = (y' :: ys').length := by simpa using hlen
          have h₁' : ∀ z ∈ x' :: xs', sep ∉ z := fun z hz => h₁ z (List.mem_cons_of_mem x hz)
          have h₂' : ∀ z ∈ y' :: ys', sep ∉ z := fun z hz => h₂ z (List.mem_cons_of_mem y hz)
          have := ih (y' :: ys') hlen' h₁' h₂' hrest
          rw [hxy, this]

theorem filterMap_id_length_eq :
    ∀ (l₁ l₂ : List (Option String)),
      List.Forall₂ (fun a b => a.isSome = b.isSome) l₁ l₂ →
      (l₁.filterMap id).length = (l₂.filterMap id).length := by
  intro l₁
  induction l₁ with
  | nil =>
    intro l₂ h
    cases h
    rfl
  | cons a t₁ ih =>
    intro l₂ h
    cases l₂ with
    | nil => cases h
    | cons b t₂ =>
      rcases List.forall₂_cons.mp h with ⟨hab, ht⟩
      cases a with
      | none =>
        cases b with
        | none => simpa using ih t₂ ht
        | some v => simp at hab
      | some u =>
        cases b with
        | none => simp at hab
        | some v => simpa using ih t₂ ht

theorem filterMap_id_inj :
    ∀ (l₁ l₂ : List (Option String)),
      List.Forall₂ (fun a b => a.isSome = b.isSome) l₁ l₂ →
      l₁.filterMap id = l₂.filterMap id → l₁ = l₂ := by
  intro l₁
  induction l₁ with
  | nil =>
    intro l₂ h _
    cases h
    rfl
  | cons a t₁ ih =>
    intro l₂ h hfm
    cases l₂ with
    | nil => cases h
    | cons b t₂ =>
      rcases List.forall₂_cons.mp h with ⟨hab, ht⟩
      cases a with
      | none =>
        cases b with
        | none =>
          have h' : t₁.filterMap id = t₂.filterMap id := by simpa using hfm
          rw [ih t₂ ht h']
        | some v => simp at hab
      | some u =>
        cases b with
        | none => simp at hab
        | some v =>
          have h' : u :: t₁.filterMap id = v :: t₂.filterMap id := by simpa using hfm
          have hu : u = v := by injection h'
          have ht' : t₁.filterMap id = t₂.filterMap id := by injection h'
          rw [hu, ih t₂ ht ht']

/-- Injectivity of a one-character-separator `pyJoin` over `filterMap id`,
for attribute lists with the same omission pattern whose non-omitted
components do not contain the separator. -/
theorem pyJoin_filterMap_inj (sep : Char) (l₁ l₂ : List (Option String))
    (hf : List.Forall₂ (fun a b => a.isSome = b.isSome) l₁ l₂)
    (h₁ : ∀ x ∈ l₁.filterMap id, sep ∉ x.data)
    (h₂ : ∀ x ∈ l₂.filterMap id, sep ∉ x.data)
    (hj : pyJoin ⟨[sep]⟩ (l₁.filterMap id) = pyJoin ⟨[sep]⟩ (l₂.filterMap id)) :
    l₁ = l₂ := by
  have hdata := congrArg String.data hj
  rw [pyJoin_data, pyJoin_data] at hdata
  have hlen : ((l₁.filterMap id).map String.data).length =
      ((l₂.filterMap id).map String.data).length := by
    simpa using filterMap_id_length_eq l₁ l₂ hf
  have hm₁ : ∀ x ∈ (l₁.filterMap id).map String.data, sep ∉ x := by
    intro x hx
    rcases List.mem_map.mp hx with ⟨s, hs, rfl⟩
    exact h₁ s hs
  have hm₂ : ∀ x ∈ (l₂.filterMap id).map String.data, sep ∉ x := by
    intro x hx
    rcases List.mem_map.mp hx with ⟨s, hs, rfl⟩
    exact h₂ s hs
  have hmap := charJoin_inj sep _ _ hlen hm₁ hm₂ hdata
  have hfm : l₁.filterMap id = l₂.filterMap id :=
    List.map_injective_iff.mpr (fun a b h => String.ext h) hmap
  exact filterMap_id_inj l₁ l₂ hf hfm

/-- C1 counterexample: two tuples that differ in a field non-omitted in both can
still collide.  For the key: `(u, j, m, course="X", session="s", filename=None)` and
`(u, j, m, course=None, session="X", filename="s")` differ in the session field
(`"s"` vs `"X"`, non-`None` in both) yet both produce `"u/j/m/X/s"`.  For the archive
name: `course="a-b", session=None` and `course="a", session="b"` differ in the course
field (non-`None` in both) yet both produce `"u-j-m-a-b.tgz"`. -/
theorem derived_name_collision :
    (make_s3_key_path ⟨"u", "j", some "m"⟩ (some "X") none (some "s") none none =
      make_s3_key_path ⟨"u", "j", some "m"⟩ none (some "s") (some "X") none none) ∧
    ((some "s" : Option String) ≠ some "X") ∧
    (make_s3_key_path ⟨"u", "j", some "m"⟩ (some "X") none (some "s") none none = "u/j/m/X/s") ∧
    (generate_archive_filename ⟨"u", "j", some "m"⟩ (some "a-b") none "tgz" none none =
      generate_archive_filename ⟨"u", "j", some "m"⟩ (some "a") (some "b") "tgz" none none) ∧
    ((some "a-b" : Option String) ≠ some "a") ∧
    (generate_archive_filename ⟨"u", "j", some "m"⟩ (some "a-b") none "tgz" none none =
      "u-j-m-a-b.tgz") := by
  decide

/-- C1 (amended): the derivations are injective on tuples with the same omission
pattern whose non-omitted components are free of the join separator: if two
(user_id, job_id, mode, course, session, filename) tuples agree on which optional
fields are set, every set component contains no `'/'` (for the key) resp. no `'-'`
(for the archive name), and their derived names coincide, then the tuples are equal —
equivalently, two such tuples differing in any field produce different outputs. -/
theorem derived_names_injective :
    (∀ (u₁ j₁ : String) (m₁ c₁ s₁ f₁ : Option String)
       (u₂ j₂ : String) (m₂ c₂ s₂ f₂ : Option String),
      m₁.isSome = m₂.isSome → c₁.isSome = c₂.isSome → s₁.isSome = s₂.isSome →
      f₁.isSome = f₂.isSome →
      (∀ x ∈ ([some u₁, some j₁, m₁, c₁, s₁, f₁] :
        List (Option String)).filterMap id, ('/' : Char) ∉ x.data) →
      (∀ x ∈ ([some u₂, some j₂, m₂, c₂, s₂, f₂] :
        List (Option String)).filterMap id, ('/' : Char) ∉ x.data) →
      job_attributes_key u₁ j₁ m₁ c₁ s₁ f₁ = job_attributes_key u₂ j₂ m₂ c₂ s₂ f₂ →
      u₁ = u₂ ∧ j₁ = j₂ ∧ m₁ = m₂ ∧ c₁ = c₂ ∧ s₁ = s₂ ∧ f₁ = f₂) ∧
    (∀ (u₁ j₁ : String) (m₁ c₁ s₁ : Option String) (extension : String)
       (u₂ j₂ : String) (m₂ c₂ s₂ : Option String),
      m₁.isSome = m₂.isSome → c₁.isSome = c₂.isSome → s₁.isSome = s₂.isSome →
      (∀ x ∈ ([some u₁, some j₁, m₁, c₁, s₁] :
        List (Option String)).filterMap id, ('-' : Char) ∉ x.data) →
      (∀ x ∈ ([some u₂, some j₂, m₂, c₂, s₂] :
        List (Option String)).filterMap id, ('-' : Char) ∉ x.data) →
      archive_attributes_name u₁ j₁ m₁ c₁ s₁ extension =
        archive_attributes_name u₂ j₂ m₂ c₂ s₂ extension →
      u₁ = u₂ ∧ j₁ = j₂ ∧ m₁ = m₂ ∧ c₁ = c₂ ∧ s₁ = s₂) := by
  constructor
  · intro u₁ j₁ m₁ c₁ s₁ f₁ u₂ j₂ m₂ c₂ s₂ f₂ hm hc hs hf h₁ h₂ hkey
    have hforall : List.Forall₂ (fun a b => a.isSome = b.isSome)
        ([some u₁, some j₁, m₁, c₁, s₁, f₁] : List (Option String))
        ([some u₂, some j₂, m₂, c₂, s₂, f₂] : List (Option String)) :=
      .cons rfl (.cons rfl (.cons hm (.cons hc (.cons hs (.cons hf .nil)))))
    have hl := pyJoin_filterMap_inj '/' _ _ hforall h₁ h₂ hkey
    simp only [List.cons.injEq, Option.some.injEq, and_true] at hl
    exact ⟨hl.1, hl.2.1, hl.2.2.1, hl.2.2.2.1, hl.2.2.2.2.1, hl.2.2.2.2.2⟩
  · intro u₁ j₁ m₁ c₁ s₁ ext u₂ j₂ m₂ c₂ s₂ hm hc hs h₁ h₂ hname
    have hforall : List.Forall₂ (fun a b => a.isSome = b.isSome)
        ([some u₁, some j₁, m₁, c₁, s₁] : List (Option String))
        ([some u₂, some j₂, m₂, c₂, s₂] : List (Option String)) :=
      .cons rfl (.cons rfl (.cons hm (.cons hc (.cons hs .nil))))
    have hjoin : pyJoin "-" (([some u₁, some j₁, m₁, c₁, s₁] :
        List (Option String)).filterMap id) =
        pyJoin "-" (([some u₂, some j₂, m₂, c₂, s₂] :
        List (Option String)).filterMap id) := by
      have hd := congrArg String.data hname
      simp only [archive_attributes_name, String.data_append] at hd
      have hd2 : (pyJoin "-" (([some u₁, some j₁, m₁, c₁, s₁] :
          List (Option String)).filterMap id)).data ++ ('.' :: ext.data) =
          (pyJoin "-" (([some u₂, some j₂, m₂, c₂, s₂] :
          List (Option String)).filterMap id)).data ++ ('.' :: ext.data) := by
        simpa [List.append_assoc] using hd
      exact String.ext (List.append_cancel_right hd2)
    have hl := pyJoin_filterMap_inj '-' _ _ hforall h₁ h₂ hjoin
    simp only [List.cons.injEq, Option.some.injEq, and_true] at hl
    exact ⟨hl.1, hl.2.1, hl.2.2.1, hl.2.2.2.1, hl.2.2.2.2⟩

/-- Witness for `derived_names_injective` at a concrete separator-free tuple. -/
theorem derived_names_injective_witness :
    "u" = "u" ∧ "j" = "j" ∧ (some "m" : Option String) = some "m" ∧
      (some "course" : Option String) = some "course" ∧
      (none : Option String) = none ∧ (none : Option String) = none :=
  derived_names_injective.1 "u" "j" (some "m") (some "course") none none
    "u" "j" (some "m") (some "course") none none
    rfl rfl rfl rfl (by decide) (by decide) rfl

/-- C2 counterexample: an empty-string override is "supplied" but the code falls back
to the job configuration (`if not mode:` treats `""` as unset), so `make_s3_key_path`
diverges on it from the derivation `storage_key_spec` stated by the claim, which uses every
non-`None` override. -/
theorem make_s3_key_path_empty_override_divergence :
    make_s3_key_path ⟨"u", "j", some "m"⟩ none none none (some "") none ≠
      storage_key_spec ⟨"u", "j", some "m"⟩ none none none (some "") none ∧
    make_s3_key_path ⟨"u", "j", some "m"⟩ none none none (some "") none = "u/j/m" ∧
    storage_key_spec ⟨"u", "j", some "m"⟩ none none none (some "") none = "u/j/" := by
  decide

/-- C2 (amended): `make_s3_key_path` equals the derivation stated by the claim with the override
rule amended to "taken from the override argument when it is supplied and non-empty":
the components user_id, job_id, mode, course, session, filename in that fixed order,
omitting every `None` component, joined by `"/"`; and `generate_archive_filename`
equals the corresponding hyphen-joined derivation followed by `"."` and the
extension.  Both are pure functions, so identical inputs give identical outputs. -/
theorem make_s3_key_path_structure (job_config : MorfJob)
    (course filename session mode job_id : Option String) (extension : String) :
    make_s3_key_path job_config course filename session mode job_id =
      storage_key_spec_amended job_config course filename session mode job_id ∧
    generate_archive_filename job_config course session extension mode job_id =
      archive_filename_spec_amended job_config course session extension mode job_id := by
  have hm : resolve_mode job_config mode =
      (match mode with
       | some s => if s = "" then job_config.mode else some s
       | none => job_config.mode) := by
    cases mode with
    | none => rfl
    | some s =>
      by_cases h : s = ""
      · subst h; rfl
      · have hne : s.isEmpty = false := by
          cases hi : s.isEmpty
          · rfl
          · exact absurd ((String.isEmpty_iff s).mp hi) h
        simp [resolve_mode, pyTruthy, hne, h]
  have hj : resolve_job_id job_config job_id =
      (match job_id with
       | some s => if s = "" then job_config.job_id else s
       | none => job_config.job_id) := by
    cases job_id with
    | none => rfl
    | some s =>
      by_cases h : s = ""
      · subst h; rfl
      · have hne : s.isEmpty = false := by
          cases hi : s.isEmpty
          · rfl
          · exact absurd ((String.isEmpty_iff s).mp hi) h
        simp [resolve_job_id, hne, h, String.isEmpty_iff]
  constructor
  · simp only [make_s3_key_path, job_attributes_key, storage_key_spec_amended, hm, hj,
      pyJoin_eq_intercalate]
  · simp only [generate_archive_filename, archive_attributes_name,
      archive_filename_spec_amended, hm, hj, pyJoin_eq_intercalate]

/-! ## Container invocation: `run_image` (build/lib job_runner_utils.py, lines 84-96)
and `make_docker_run_command` (morf/utils/docker.py, lines 67-79)

Both build the shell command handed to the container runtime by string
formatting.  A Python format call renders `None` as the text `"None"`, modelled
by `pyFormat`.
The command-construction slice of `run_image` (the two format branches plus
the client-argument loop) is modelled as the pure function `run_image_cmd`.
-/

/-- A Python format placeholder applied to an optional string. -/
def pyFormat : Option String → String
  | none => "None"
  | some s => s

/-- The client-argument loop over `client_args.items()`, appending a space,
two dashes, the argument name, a space and the argument value for each pair. -/
def add_client_args (cmd : String) (client_args : List (String × String)) : String :=
  client_args.foldl (fun cmd p => cmd ++ " --" ++ p.1 ++ " " ++ p.2) cmd

/-- The text the client-argument loop appends to an empty command. -/
def client_args_suffix (client_args : List (String × String)) : String :=
  client_args.foldl (fun cmd p => cmd ++ " --" ++ p.1 ++ " " ++ p.2) ""

theorem add_client_args_shift : ∀ (client_args : List (String × String)) (c d : String),
    add_client_args (c ++ d) client_args = c ++ add_client_args d client_args := by
  intro args
  induction args with
  | nil => intro c d; rfl
  | cons p rest ih =>
    intro c d
    show add_client_args (c ++ d ++ " --" ++ p.1 ++ " " ++ p.2) rest = _
    have h : c ++ d ++ " --" ++ p.1 ++ " " ++ p.2 = c ++ (d ++ " --" ++ p.1 ++ " " ++ p.2) := by
      simp [String.append_assoc]
    rw [h, ih]
    rfl

theorem add_client_args_eq (client_args : List (String × String)) (cmd : String) :
    add_client_args cmd client_args = cmd ++ client_args_suffix client_args := by
  have h := add_client_args_shift client_args cmd ""
  simpa using h

theorem client_args_suffix_mem (n v : String) :
    ∀ (client_args : List (String × String)), (n, v) ∈ client_args →
      ∃ pre post, client_args_suffix client_args = pre ++ (" --" ++ n ++ " " ++ v) ++ post := by
  intro args
  induction args with
  | nil => intro h; cases h
  | cons p rest ih =>
    intro h
    rcases List.mem_cons.mp h with h | h
    · refine ⟨"", client_args_suffix rest, ?_⟩
      show add_client_args ("" ++ " --" ++ p.1 ++ " " ++ p.2) rest = _
      rw [show ("" ++ " --" ++ p.1 ++ " " ++ p.2 : String) =
        ("" ++ " --" ++ p.1 ++ " " ++ p.2) ++ "" by simp]
      rw [add_client_args_shift rest _ ""]
      rw [← h]
      show ("" ++ " --" ++ n ++ " " ++ v) ++ client_args_suffix rest = _
      simp [String.append_assoc]
    · rcases ih h with ⟨pre, post, hp⟩
      refine ⟨" --" ++ p.1 ++ " " ++ p.2 ++ pre, post, ?_⟩
      show add_client_args ("" ++ " --" ++ p.1 ++ " " ++ p.2) rest = _
      rw [show ("" ++ " --" ++ p.1 ++ " " ++ p.2 : String) =
        ("" ++ " --" ++ p.1 ++ " " ++ p.2) ++ "" by simp]
      rw [add_client_args_shift rest _ ""]
      show ("" ++ " --" ++ p.1 ++ " " ++ p.2) ++ client_args_suffix rest = _
      rw [hp]
      simp [String.append_assoc]

/-- The docker command built by `run_image`: when the job mode is
`extract-holdout` the format call receives the literal `"extract"`, otherwise
the mode string of the job itself; then the client arguments are appended. -/
def run_image_cmd (docker_exec input_dir output_dir image_uuid : String)
    (course session : Option String) (mode : String)
    (client_args : List (String × String)) : String :=
  let cmd :=
    if mode == "extract-holdout" then
      docker_exec ++ " run --network=\"none\" --rm=true --volume=" ++ input_dir ++
        ":/input --volume=" ++ output_dir ++ ":/output " ++ image_uuid ++ " --course " ++
        pyFormat course ++ " --session " ++ pyFormat session ++ " --mode " ++ "extract"
    else
      docker_exec ++ " run --network=\"none\" --rm=true --volume=" ++ input_dir ++
        ":/input --volume=" ++ output_dir ++ ":/output " ++ image_uuid ++ " --course " ++
        pyFormat course ++ " --session " ++ pyFormat session ++ " --mode " ++ mode
  add_client_args cmd client_args

/-- `make_docker_image_name(job_config, course, session, mode)` with the default
name prefix `"MORF"`. -/
def make_docker_image_name (morf_id : String) (course session : Option String)
    (mode : String) : String :=
  "MORF" ++ "-" ++ morf_id ++ "-" ++ mode ++ "-" ++ pyFormat course ++ "-" ++ pyFormat session

/-- `make_docker_run_command(job_config, docker_exec, input_dir, output_dir,
image_uuid, course, session, mode, client_args)`. -/
def make_docker_run_command (morf_id docker_exec input_dir output_dir image_uuid : String)
    (course session : Option String) (mode : String)
    (client_args : List (String × String)) : String :=
  add_client_args (docker_exec ++ " run --name " ++
    make_docker_image_name morf_id course session mode ++
    " --network=\"none\" --rm=true --volume=" ++ input_dir ++ ":/input --volume=" ++
    output_dir ++ ":/output " ++ image_uuid ++ " --course " ++ pyFormat course ++
    " --session " ++ pyFormat session ++ " --mode " ++ mode) client_args

theorem run_image_cmd_eq (de i o u : String) (c s : Option String) (mode : String)
    (args : List (String × String)) :
    run_image_cmd de i o u c s mode args =
      de ++ " run --network=\"none\" --rm=true --volume=" ++ i ++ ":/input --volume=" ++ o ++
        ":/output " ++ u ++ " --course " ++ pyFormat c ++ " --session " ++ pyFormat s ++
        " --mode " ++ (if mode == "extract-holdout" then "extract" else mode) ++
        client_args_suffix args := by
  simp only [run_image_cmd, add_client_args_eq]
  cases hmode : (mode == "extract-holdout") <;> simp [hmode]

theorem make_docker_run_command_eq (mid de i o u : String) (c s : Option String)
    (mode : String) (args : List (String × String)) :
    make_docker_run_command mid de i o u c s mode args =
      de ++ " run --name " ++ make_docker_image_name mid c s mode ++
        " --network=\"none\" --rm=true --volume=" ++ i ++ ":/input --volume=" ++ o ++
        ":/output " ++ u ++ " --course " ++ pyFormat c ++ " --session " ++ pyFormat s ++
        " --mode " ++ mode ++ client_args_suffix args := by
  simp only [make_docker_run_command, add_client_args_eq]

/-- C4: while the job mode is `extract-holdout`, the command built by `run_image` is
exactly the command built for plain `extract` (the mode is rewritten); for every other
mode the own mode string of the job follows `--mode`.  In every case — in `run_image` and in
`make_docker_run_command` — the command disables network access
(`--network="none"`), bind-mounts the input and output directories to `/input` and
`/output`, passes `--course` and `--session`, and appends each client argument as a
`--name value` pair. -/
theorem run_image_extract_holdout_rewrite :
    (∀ (de i o u : String) (c s : Option String) (args : List (String × String)),
      run_image_cmd de i o u c s "extract-holdout" args =
        run_image_cmd de i o u c s "extract" args) ∧
    (∀ (de i o u : String) (c s : Option String) (mode : String)
        (args : List (String × String)), mode ≠ "extract-holdout" →
      ∃ pre, run_image_cmd de i o u c s mode args =
        pre ++ (" --mode " ++ mode) ++ client_args_suffix args) ∧
    (∀ (de i o u : String) (c s : Option String) (mode : String)
        (args : List (String × String)), ∃ pre post,
      run_image_cmd de i o u c s mode args = pre ++ "--network=\"none\"" ++ post) ∧
    (∀ (de i o u : String) (c s : Option String) (mode : String)
        (args : List (String × String)), ∃ pre post,
      run_image_cmd de i o u c s mode args = pre ++ ("--volume=" ++ i ++ ":/input") ++ post) ∧
    (∀ (de i o u : String) (c s : Option String) (mode : String)
        (args : List (String × String)), ∃ pre post,
      run_image_cmd de i o u c s mode args = pre ++ ("--volume=" ++ o ++ ":/output") ++ post) ∧
    (∀ (de i o u : String) (c s : Option String) (mode : String)
        (args : List (String × String)), ∃ pre post,
      run_image_cmd de i o u c s mode args =
        pre ++ (" --course " ++ pyFormat c ++ " --session " ++ pyFormat s) ++ post) ∧
    (∀ (de i o u : String) (c s : Option String) (mode : String)
        (args : List (String × String)) (n v : String), (n, v) ∈ args →
      ∃ pre post, run_image_cmd de i o u c s mode args =
        pre ++ (" --" ++ n ++ " " ++ v) ++ post) ∧
    (∀ (mid de i o u : String) (c s : Option String) (mode : String)
        (args : List (String × String)), ∃ pre,
      make_docker_run_command mid de i o u c s mode args =
        pre ++ (" --mode " ++ mode) ++ client_args_suffix args) ∧
    (∀ (mid de i o u : String) (c s : Option String) (mode : String)
        (args : List (String × String)), ∃ pre post,
      make_docker_run_command mid de i o u c s mode args =
        pre ++ "--network=\"none\"" ++ post) ∧
    (∀ (mid de i o u : String) (c s : Option String) (mode : String)
        (args : List (String × String)), ∃ pre post,
      make_docker_run_command mid de i o u c s mode args =
        pre ++ ("--volume=" ++ i ++ ":/input") ++ post) ∧
    (∀ (mid de i o u : String) (c s : Option String) (mode : String)
        (args : List (String × String)), ∃ pre post,
      make_docker_run_command mid de i o u c s mode args =
        pre ++ ("--volume=" ++ o ++ ":/output") ++ post) ∧
    (∀ (mid de i o u : String) (c s : Option String) (mode : String)
        (args : List (String × String)), ∃ pre post,
      make_docker_run_command mid de i o u c s mode args =
        pre ++ (" --course " ++ pyFormat c ++ " --session " ++ pyFormat s) ++ post) ∧
    (∀ (mid de i o u : String) (c s : Option String) (mode : String)
        (args : List (String × String)) (n v : String), (n, v) ∈ args →
      ∃ pre post, make_docker_run_command mid de i o u c s mode args =
        pre ++ (" --" ++ n ++ " " ++ v) ++ post) := by
  refine ⟨?_, ?_, ?_, ?_, ?_, ?_, ?_, ?_, ?_, ?_, ?_, ?_, ?_⟩
  · intro de i o u c s args
    rw [run_image_cmd_eq, run_image_cmd_eq]
    rfl
  · intro de i o u c s mode args h
    rw [run_image_cmd_eq]
    have hb : (mode == "extract-holdout") = false := beq_eq_false_iff_ne.mpr h
    rw [hb]
    refine ⟨de ++ " run --network=\"none\" --rm=true --volume=" ++ i ++ ":/input --volume=" ++
      o ++ ":/output " ++ u ++ " --course " ++ pyFormat c ++ " --session " ++ pyFormat s, ?_⟩
    simp only [String.append_assoc]
    rfl
  · intro de i o u c s mode args
    rw [run_image_cmd_eq]
    rw [show (" run --network=\"none\" --rm=true --volume=" : String) =
      " run " ++ "--network=\"none\"" ++ " --rm=true --volume=" from rfl]
    refine ⟨de ++ " run ",
      " --rm=true --volume=" ++ i ++ ":/input --volume=" ++ o ++ ":/output " ++ u ++
        " --course " ++ pyFormat c ++ " --session " ++ pyFormat s ++ " --mode " ++
        (if mode == "extract-holdout" then "extract" else mode) ++
        client_args_suffix args, ?_⟩
    simp only [String.append_assoc]
  · intro de i o u c s mode args
    rw [run_image_cmd_eq]
    rw [show (" run --network=\"none\" --rm=true --volume=" : String) =
      " run --network=\"none\" --rm=true " ++ "--volume=" from rfl]
    rw [show (":/input --volume=" : String) = ":/input" ++ " --volume=" from rfl]
    refine ⟨de ++ " run --network=\"none\" --rm=true ",
      " --volume=" ++ o ++ ":/output " ++ u ++ " --course " ++ pyFormat c ++ " --session " ++
        pyFormat s ++ " --mode " ++ (if mode == "extract-holdout" then "extract" else mode) ++
        client_args_suffix args, ?_⟩
    simp only [String.append_assoc]
  · intro de i o u c s mode args
    rw [run_image_cmd_eq]
    rw [show (":/input --volume=" : String) = ":/input " ++ "--volume=" from rfl]
    rw [show (":/output " : String) = ":/output" ++ " " from rfl]
    refine ⟨de ++ " run --network=\"none\" --rm=true --volume=" ++ i ++ ":/input ",
      " " ++ u ++ " --course " ++ pyFormat c ++ " --session " ++ pyFormat s ++ " --mode " ++
        (if mode == "extract-holdout" then "extract" else mode) ++
        client_args_suffix args, ?_⟩
    simp only [String.append_assoc]
  · intro de i o u c s mode args
    rw [run_image_cmd_eq]
    refine ⟨de ++ " run --network=\"none\" --rm=true --volume=" ++ i ++ ":/input --volume=" ++
      o ++ ":/output " ++ u,
      " --mode " ++ (if mode == "extract-holdout" then "extract" else mode) ++
        client_args_suffix args, ?_⟩
    simp only [String.append_assoc]
  · intro de i o u c s mode args n v h
    rw [run_image_cmd_eq]
    rcases client_args_suffix_mem n v args h with ⟨p, q, hpq⟩
    rw [hpq]
    refine ⟨de ++ " run --network=\"none\" --rm=true --volume=" ++ i ++ ":/input --volume=" ++
      o ++ ":/output " ++ u ++ " --course " ++ pyFormat c ++ " --session " ++ pyFormat s ++
      " --mode " ++ (if mode == "extract-holdout" then "extract" else mode) ++ p, q, ?_⟩
    simp only [String.append_assoc]
  · intro mid de i o u c s mode args
    rw [make_docker_run_command_eq]
    refine ⟨de ++ " run --name " ++ make_docker_image_name mid c s mode ++
      " --network=\"none\" --rm=true --volume=" ++ i ++ ":/input --volume=" ++ o ++
      ":/output " ++ u ++ " --course " ++ pyFormat c ++ " --session " ++ pyFormat s, ?_⟩
    simp only [String.append_assoc]
  · intro mid de i o u c s mode args
    rw [make_docker_run_command_eq]
    rw [show (" --network=\"none\" --rm=true --volume=" : String) =
      " " ++ "--network=\"none\"" ++ " --rm=true --volume=" from rfl]
    refine ⟨de ++ " run --name " ++ make_docker_image_name mid c s mode ++ " ",
      " --rm=true --volume=" ++ i ++ ":/input --volume=" ++ o ++ ":/output " ++ u ++
        " --course " ++ pyFormat c ++ " --session " ++ pyFormat s ++ " --mode " ++ mode ++
        client_args_suffix args, ?_⟩
    simp only [String.append_assoc]
  · intro mid de i o u c s mode args
    rw [make_docker_run_command_eq]
    rw [show (" --network=\"none\" --rm=true --volume=" : String) =
      " --network=\"none\" --rm=true " ++ "--volume=" from rfl]
    rw [show (":/input --volume=" : String) = ":/input" ++ " --volume=" from rfl]
    refine ⟨de ++ " run --name " ++ make_docker_image_name mid c s mode ++
      " --network=\"none\" --rm=true ",
      " --volume=" ++ o ++ ":/output " ++ u ++ " --course " ++ pyFormat c ++ " --session " ++
        pyFormat s ++ " --mode " ++ mode ++ client_args_suffix args, ?_⟩
    simp only [String.append_assoc]
  · intro mid de i o u c s mode args
    rw [make_docker_run_command_eq]
    rw [show (":/input --volume=" : String) = ":/input " ++ "--volume=" from rfl]
    rw [show (":/output " : String) = ":/output" ++ " " from rfl]
    refine ⟨de ++ " run --name " ++ make_docker_image_name mid c s mode ++
      " --network=\"none\" --rm=true --volume=" ++ i ++ ":/input ",
      " " ++ u ++ " --course " ++ pyFormat c ++ " --session " ++ pyFormat s ++ " --mode " ++
        mode ++ client_args_suffix args, ?_⟩
    simp only [String.append_assoc]
  · intro mid de i o u c s mode args
    rw [make_docker_run_command_eq]
    refine ⟨de ++ " run --name " ++ make_docker_image_name mid c s mode ++
      " --network=\"none\" --rm=true --volume=" ++ i ++ ":/input --volume=" ++ o ++
      ":/output " ++ u,
      " --mode " ++ mode ++ client_args_suffix args, ?_⟩
    simp only [String.append_assoc]
  · intro mid de i o u c s mode args n v h
    rw [make_docker_run_command_eq]
    rcases client_args_suffix_mem n v args h with ⟨p, q, hpq⟩
    rw [hpq]
    refine ⟨de ++ " run --name " ++ make_docker_image_name mid c s mode ++
      " --network=\"none\" --rm=true --volume=" ++ i ++ ":/input --volume=" ++ o ++
      ":/output " ++ u ++ " --course " ++ pyFormat c ++ " --session " ++ pyFormat s ++
      " --mode " ++ mode ++ p, q, ?_⟩
    simp only [String.append_assoc]

/-- Witness for `run_image_extract_holdout_rewrite`: the mode-rewriting equality and
the client-argument fact at a concrete invocation. -/
theorem run_image_extract_holdout_rewrite_witness :
    (run_image_cmd "docker" "/tmp/in" "/tmp/out" "img" (some "c1") (some "001")
        "extract-holdout" [("label_type", "dropout")] =
      run_image_cmd "docker" "/tmp/in" "/tmp/out" "img" (some "c1") (some "001")
        "extract" [("label_type", "dropout")]) ∧
    (∃ pre post, run_image_cmd "docker" "/tmp/in" "/tmp/out" "img" (some "c1") (some "001")
        "train" [("label_type", "dropout")] =
      pre ++ (" --" ++ "label_type" ++ " " ++ "dropout") ++ post) ∧
    (∃ pre, run_image_cmd "docker" "/tmp/in" "/tmp/out" "img" (some "c1") (some "001")
        "train" [("label_type", "dropout")] =
      pre ++ (" --mode " ++ "train") ++ client_args_suffix [("label_type", "dropout")]) :=
  ⟨run_image_extract_holdout_rewrite.1 "docker" "/tmp/in" "/tmp/out" "img" (some "c1")
      (some "001") [("label_type", "dropout")],
   run_image_extract_holdout_rewrite.2.2.2.2.2.2.1 "docker" "/tmp/in" "/tmp/out" "img"
      (some "c1") (some "001") "train" [("label_type", "dropout")] "label_type" "dropout"
      (by decide),
   run_image_extract_holdout_rewrite.2.1 "docker" "/tmp/in" "/tmp/out" "img"
      (some "c1") (some "001") "train" [("label_type", "dropout")] (by decide)⟩

/-! ## Worker-pool fan-out: `extract_course` (morf/workflow/extract.py, lines 75-87)
and `extract_holdout_session` (lines 225-235)

The multithread branch dispatches `pool.apply_async(run_job, ...)` once per
unit, appends the returned future to `reslist`, calls `pool.close()` and
`pool.join()` (so every dispatched unit runs to completion before any result
is inspected), and then runs `for res in reslist: print(res.get())`.  A
`.get()` on a future re-raises the exception raised inside the worker.  The
execution outcome is modelled as an `Except`; the dispatch step is a `map`
(units are independent), and the result loop is `pool_get_loop`, returning the
results obtained (printed) before the loop ends plus the exception, if any,
that escapes the loop. -/

/-- One `apply_async` dispatch per unit; after `pool.join()` every unit has an
outcome, independent of the outcomes of the other units. -/
def pool_apply_async {α β : Type} (run_job : α → Except PyError β) (units : List α) :
    List (Except PyError β) :=
  units.map run_job

/-- `for res in reslist: print(res.get())`: results are inspected in dispatch
order; the exception of the first failing unit is re-raised out of the loop. -/
def pool_get_loop {β : Type} : List (Except PyError β) → List β × Option PyError
  | [] => ([], none)
  | .ok b :: rs =>
    let p := pool_get_loop rs
    (b :: p.1, p.2)
  | .error e :: _ => ([], some e)

/-- C5 counterexample: a batch of three units whose first unit raises.  The
result-collection loop obtains zero of the other two results (not N−1 = 2) and
re-raises the exception out of the collection step. -/
theorem pool_get_loop_reraises :
    pool_get_loop [Except.error (PyError.runtimeError "boom"),
      Except.ok (1 : Nat), Except.ok 2] = ([], some (PyError.runtimeError "boom")) ∧
    (some (PyError.runtimeError "boom") : Option PyError) ≠ none ∧
    ([] : List Nat).length ≠ 2 := by
  decide

/-- C5 (amended): every dispatched unit still executes (the pool is joined after all
dispatches, producing one outcome per unit regardless of failures in other units), and
when no unit fails the loop obtains one result per unit and raises nothing; but the
collection loop is not failure-tolerant: it obtains exactly the results of the units
preceding the first failing unit and re-raises the exception of that unit. -/
theorem pool_get_loop_first_error :
    (∀ (α β : Type) (run_job : α → Except PyError β) (units : List α),
      (pool_apply_async run_job units).length = units.length) ∧
    (∀ (β : Type) (rs : List (Except PyError β)),
      (∀ r ∈ rs, ∃ b, r = .ok b) →
      (pool_get_loop rs).2 = none ∧ (pool_get_loop rs).1.length = rs.length) ∧
    (∀ (β : Type) (pre : List β) (e : PyError) (rest : List (Except PyError β)),
      pool_get_loop (pre.map .ok ++ .error e :: rest) = (pre, some e)) := by
  refine ⟨fun α β run_job units => List.length_map units run_job, ?_, ?_⟩
  · intro β rs h
    induction rs with
    | nil => exact ⟨rfl, rfl⟩
    | cons r rest ih =>
      rcases h r (List.mem_cons_self r rest) with ⟨b, rfl⟩
      have ih' := ih (fun r hr => h r (List.mem_cons_of_mem _ hr))
      simp [pool_get_loop, ih'.1, ih'.2]
  · intro β pre e rest
    induction pre with
    | nil => rfl
    | cons b bs ih => simp [pool_get_loop, ih]

/-- Witness for `pool_get_loop_first_error`: an all-success batch of two units yields
both results and no exception. -/
theorem pool_get_loop_first_error_witness :
    (pool_get_loop [Except.ok (7 : Nat), Except.ok 8]).2 = none ∧
    (pool_get_loop [Except.ok (7 : Nat), Except.ok 8]).1.length = 2 :=
  pool_get_loop_first_error.2.1 Nat [Except.ok 7, Except.ok 8] (by
    intro r hr
    simp only [List.mem_cons, List.not_mem_nil, or_false] at hr
    rcases hr with rfl | rfl
    · exact ⟨7, rfl⟩
    · exact ⟨8, rfl⟩)

/-! ## Upload-then-delete: `move_results_to_destination` (utils/__init__.py,
lines 775-792) and `upload_file_to_s3` (lines 589-610)

The local working directory is modelled as the list of files present; whether
the S3 transfer raises is the `upload_ok` parameter.  In `upload_file_to_s3`
the `os.remove` sits inside the `try`, after the upload, guarded by
`remove_on_success`; in `move_results_to_destination` the `try/except` wraps
only `s3.upload_file`, and `os.remove(archive_file)` follows unconditionally. -/

/-- `upload_file_to_s3(file, bucket, key, job_config, remove_on_success)`: the
file is removed only when the upload succeeded and removal was requested. -/
def upload_file_to_s3 (upload_ok : Bool) (fs : List String) (file : String)
    (remove_on_success : Bool) : List String :=
  if upload_ok then
    if remove_on_success then fs.erase file else fs
  else
    fs

/-- `move_results_to_destination(archive_file, job_config, course, session)`:
computes the canonical storage key, attempts the upload inside `try/except`
(a failure is only logged), then removes the local archive unconditionally.
Returns the key used and the resulting local filesystem. -/
def move_results_to_destination (job_config : MorfJob) (upload_ok : Bool)
    (fs : List String) (archive_file : String) (course session : Option String) :
    String × List String :=
  let key := make_s3_key_path job_config course (some archive_file) session none none
  (key, fs.erase archive_file)

/-- C6: evaluation at the failing input.  With the upload failing,
`move_results_to_destination` still deletes the local archive (the `os.remove` is
outside the `try`), so the file no longer exists afterwards — while the
`remove_on_success` path of `upload_file_to_s3` correctly keeps it. -/
theorem move_results_deletes_archive_on_failed_upload :
    (move_results_to_destination ⟨"u", "j", some "train"⟩ false ["results.tgz"]
        "results.tgz" (some "c1") none).2 = [] ∧
    "results.tgz" ∈ ["results.tgz"] ∧
    upload_file_to_s3 false ["results.tgz"] "results.tgz" true = ["results.tgz"] ∧
    (move_results_to_destination ⟨"u", "j", some "train"⟩ false ["results.tgz"]
        "results.tgz" (some "c1") none).1 = "u/j/train/c1/results.tgz" := by
  decide

/-! ## Archive-format guard: `unarchive_file` (utils/__init__.py, lines 47-78)

`src.endswith(".zip") or src.endswith(".tgz")` selects the tar branch,
`src.endswith(".gz")` the gzip branch, any other extension raises
`NotImplementedError` before anything is touched; after a successful
extraction with `remove=True`, `os.remove(src)` deletes the source archive.
The outcome is the returned output path plus the resulting filesystem. -/

/-- Python `os.path.basename`. -/
def pyBasename (s : String) : String :=
  ⟨(s.data.reverse.takeWhile (fun c => c ≠ '/')).reverse⟩

/-- Python `s.endswith(suffix)`. -/
def pyEndsWith (s suffix : String) : Bool :=
  suffix.data.isSuffixOf s.data

/-- `unarchive_file(src, dest, remove)` over a local filesystem `fs`. -/
def unarchive_file (fs : List String) (src dest : String) (remove : Bool) :
    Except PyError String × List String :=
  if pyEndsWith src ".zip" || pyEndsWith src ".tgz" then
    (.ok (dest ++ "/" ++ pyBasename src), if remove then fs.erase src else fs)
  else if pyEndsWith src ".gz" then
    let destfile : String := ⟨(pyBasename src).data.take ((pyBasename src).data.length - 3)⟩
    (.ok (dest ++ "/" ++ destfile), if remove then fs.erase src else fs)
  else
    (.error (.notImplementedError
      ("Passed in a file with an extension not supported by unarchive_file: " ++ src)), fs)

/-- C8: for any source whose extension is not one of the supported archive formats
(`.zip`, `.tgz`, `.gz`), `unarchive_file` fails with the unsupported-format error and
leaves the filesystem — in particular the source file — untouched; for a supported
source, extraction succeeds, `remove=true` removes the source archive afterwards, and
`remove=false` leaves the filesystem unchanged. -/
theorem unarchive_file_format_guard :
    (∀ (fs : List String) (src dest : String) (remove : Bool),
      ¬(pyEndsWith src ".zip" = true ∨ pyEndsWith src ".tgz" = true ∨
        pyEndsWith src ".gz" = true) →
      (unarchive_file fs src dest remove).1 = .error (.notImplementedError
        ("Passed in a file with an extension not supported by unarchive_file: " ++ src)) ∧
      (unarchive_file fs src dest remove).2 = fs) ∧
    (∀ (fs : List String) (src dest : String),
      (pyEndsWith src ".zip" = true ∨ pyEndsWith src ".tgz" = true ∨
        pyEndsWith src ".gz" = true) →
      fs.Nodup →
      (∃ outpath, (unarchive_file fs src dest true).1 = .ok outpath) ∧
      src ∉ (unarchive_file fs src dest true).2 ∧
      (unarchive_file fs src dest false).2 = fs) := by
  constructor
  · intro fs src dest remove h
    push_neg at h
    rcases h with ⟨h1, h2, h3⟩
    have h1' : pyEndsWith src ".zip" = false := by simpa using h1
    have h2' : pyEndsWith src ".tgz" = false := by simpa using h2
    have h3' : pyEndsWith src ".gz" = false := by simpa using h3
    simp [unarchive_file, h1', h2', h3']
  · intro fs src dest h hnd
    have herase : src ∉ fs.erase src := hnd.not_mem_erase
    rcases h with h | h | h
    · simp [unarchive_file, h, herase]
    · simp [unarchive_file, h, herase]
    · by_cases hzip : pyEndsWith src ".zip" = true
      · simp [unarchive_file, hzip, herase]
      · by_cases htgz : pyEndsWith src ".tgz" = true
        · simp [unarchive_file, htgz, herase]
        · simp [unarchive_file, h, hzip, htgz, herase]

/-- Witness for `unarchive_file_format_guard`: a `.rar` source fails and stays in
place; a `.tgz` source with `remove=true` is removed after extraction. -/
theorem unarchive_file_format_guard_witness :
    ((unarchive_file ["data.rar"] "data.rar" "dest" true).1 = .error
      (.notImplementedError
        ("Passed in a file with an extension not supported by unarchive_file: " ++
          "data.rar")) ∧
    (unarchive_file ["data.rar"] "data.rar" "dest" true).2 = ["data.rar"]) ∧
    "data.tgz" ∉ (unarchive_file ["data.tgz"] "data.tgz" "dest" true).2 :=
  ⟨unarchive_file_format_guard.1 ["data.rar"] "data.rar" "dest" true (by decide),
   (unarchive_file_format_guard.2 ["data.tgz"] "data.tgz" "dest"
     (by decide) (by decide)).2.1⟩

/-! ## Job configuration: `MorfJobConfig.__init__` (utils/config.py, lines 135-160)
and `fetch_data_buckets_from_config` (lines 108-132)

A parsed INI config file is a list of sections, each a list of key/value
pairs.  `get_config_properties` flattens the requested sections into a flat
property list (later entries shadow earlier ones, as in a Python dict).
`fetch_data_buckets_from_config` walks the `[data]` section (raising
`NoSectionError` when it is absent), parses each value as an `s3://` URL
(`.group(1)` on a failed regex match raises `AttributeError`), raises on any
directory part different from `morf-data/` (a bare `raise` with no active
exception is a `RuntimeError`), and finally asserts at least one bucket.
`__init__` copies every property onto the object unchecked — there is no
required-field validation (`check_configurations` is an empty `pass`) — then
fetches the data buckets and derives `max_num_cores`
(`max(cpu_count//2 - 1, 1)` when unset, `int(...)` of the property
otherwise). -/

/-- A parsed INI configuration file: sections with their key/value items. -/
abbrev ConfigFile := List (String × List (String × String))

/-- `get_config_properties(config_file, sections_to_fetch)`. -/
def get_config_properties (cf : ConfigFile) (sections_to_fetch : Option (List String)) :
    List (String × String) :=
  (cf.filter (fun sec =>
    match sections_to_fetch with
    | none => true
    | some secs => secs.contains sec.1)).flatMap (fun sec => sec.2)

/-- Whether the flattened properties contain a key. -/
def hasProp (props : List (String × String)) (key : String) : Bool :=
  props.any (fun p => p.1 == key)

/-- Dictionary lookup over the flattened properties (the last write wins, as in
the Python dict the properties are accumulated into). -/
def getProp (props : List (String × String)) (key : String) : Option String :=
  (props.reverse.find? (fun p => p.1 == key)).map (fun p => p.2)

/-- `get_bucket_from_url(url)`: `re.search("^s3://([^/]+)", url).group(1)`. -/
def get_bucket_from_url (url : String) : Except PyError String :=
  if "s3://".data.isPrefixOf url.data then
    let rest := url.data.drop 5
    let bucket := rest.takeWhile (fun c => c ≠ '/')
    if bucket.isEmpty then
      .error (.attributeError "NoneType object has no attribute group")
    else
      .ok ⟨bucket⟩
  else
    .error (.attributeError "NoneType object has no attribute group")

/-- `get_key_from_url(url)`: `re.search("^s3://[^/]+/(.+)", url).group(1)`. -/
def get_key_from_url (url : String) : Except PyError String :=
  if "s3://".data.isPrefixOf url.data then
    let rest := url.data.drop 5
    let bucket := rest.takeWhile (fun c => c ≠ '/')
    if bucket.isEmpty then
      .error (.attributeError "NoneType object has no attribute group")
    else
      match rest.drop bucket.length with
      | '/' :: key =>
        if key.isEmpty then
          .error (.attributeError "NoneType object has no attribute group")
        else
          .ok ⟨key⟩
      | _ => .error (.attributeError "NoneType object has no attribute group")
  else
    .error (.attributeError "NoneType object has no attribute group")

/-- The item loop of `fetch_data_buckets_from_config` followed by the final
`assert len(buckets) >= 1`. -/
def fetch_data_buckets_go (required_bucket_dir_name : String) :
    List (String × String) → List String → Except PyError (List String)
  | [], buckets =>
    if buckets.length ≥ 1 then .ok buckets
    else .error (.assertionError "len(buckets) >= 1")
  | item :: rest, buckets =>
    match get_bucket_from_url item.2 with
    | .error e => .error e
    | .ok bucket =>
      match get_key_from_url item.2 with
      | .error e => .error e
      | .ok dir =>
        if dir ≠ required_bucket_dir_name then
          .error (.runtimeError "No active exception to re-raise")
        else
          fetch_data_buckets_go required_bucket_dir_name rest (buckets ++ [bucket])

/-- `fetch_data_buckets_from_config(config_file, data_section,
required_bucket_dir_name)`; `cf.items(section)` on a missing section raises
`NoSectionError`. -/
def fetch_data_buckets_from_config (cf : ConfigFile)
    (data_section required_bucket_dir_name : String) : Except PyError (List String) :=
  match cf.find? (fun sec => sec.1 == data_section) with
  | none => .error (.noSectionError data_section)
  | some sec => fetch_data_buckets_go required_bucket_dir_name sec.2 []

/-- `int()` on the non-negative decimal literals used for `max_num_cores`
(anything else raises `ValueError`). -/
def pyParseNat (s : String) : Option Nat :=
  if s.data ≠ [] ∧ s.data.all (fun c => 48 ≤ c.toNat && c.toNat ≤ 57) then
    some (s.data.foldl (fun n c => n * 10 + (c.toNat - 48)) 0)
  else none

/-- The object produced by `MorfJobConfig.__init__`. -/
structure MorfJobConfig where
  mode : Option String
  status : String
  properties : List (String × String)
  raw_data_buckets : List String
  client_args : List (String × String)
  morf_id : String
  max_num_cores : Nat
  deriving DecidableEq, Repr

/-- `MorfJobConfig.__init__(config_file)`.  `cpu_count` models
`multiprocessing.cpu_count()` and `md5` the `generate_md5` content hash; the
workflows always construct from `config.properties`, which is also the default
the inner `fetch_data_buckets_from_config()` call reads, so both read the same
file. -/
def MorfJobConfig.init (cf : ConfigFile) (cpu_count : Nat)
    (md5 : ConfigFile → String) : Except PyError MorfJobConfig :=
  let properties := get_config_properties cf none
  let client_args := get_config_properties cf (some ["args"])
  match fetch_data_buckets_from_config cf "data" "morf-data/" with
  | .error e => .error e
  | .ok raw_data_buckets =>
    let morf_id := md5 cf
    match getProp properties "max_num_cores" with
    | none =>
      .ok ⟨none, "START", properties, raw_data_buckets, client_args, morf_id,
        max (cpu_count / 2 - 1) 1⟩
    | some str =>
      match pyParseNat str with
      | none => .error (.valueError ("invalid literal for int(): " ++ str))
      | some n =>
        .ok ⟨none, "START", properties, raw_data_buckets, client_args, morf_id, n⟩

/-- C9 counterexample: a configuration with a valid `[data]` section but no
`user_id` (a required job-identity field) constructs successfully — no
required-field validation happens at construction time. -/
theorem morf_job_config_missing_field_no_raise :
    (MorfJobConfig.init [("data", [("umich", "s3://morf-bucket/morf-data/")])] 4
      (fun _ => "abc")).isOk = true ∧
    hasProp (get_config_properties
      [("data", [("umich", "s3://morf-bucket/morf-data/")])] none) "user_id" = false := by
  decide

theorem fetch_data_buckets_go_bad (required : String) :
    ∀ (items : List (String × String)) (acc : List String),
      (∃ item ∈ items, get_key_from_url item.2 ≠ .ok required) →
      (fetch_data_buckets_go required items acc).isOk = false := by
  intro items
  induction items with
  | nil =>
    intro acc h
    rcases h with ⟨item, hmem, _⟩
    cases hmem
  | cons item rest ih =>
    intro acc h
    rcases h with ⟨bad, hmem, hbad⟩
    cases hb : get_bucket_from_url item.2 with
    | error e => simp [fetch_data_buckets_go, hb, Except.isOk, Except.toBool]
    | ok bucket =>
      cases hk : get_key_from_url item.2 with
      | error e => simp [fetch_data_buckets_go, hb, hk, Except.isOk, Except.toBool]
      | ok dir =>
        by_cases hdir : dir = required
        · subst hdir
          have hstep : fetch_data_buckets_go dir (item :: rest) acc =
              fetch_data_buckets_go dir rest (acc ++ [bucket]) := by
            simp [fetch_data_buckets_go, hb, hk]
          rw [hstep]
          rcases List.mem_cons.mp hmem with rfl | hmem'
          · exact absurd hk hbad
          · exact ih (acc ++ [bucket]) ⟨bad, hmem', hbad⟩
        · have hstep : fetch_data_buckets_go required (item :: rest) acc =
              .error (.runtimeError "No active exception to re-raise") := by
            simp [fetch_data_buckets_go, hb, hk, hdir]
          rw [hstep]
          rfl

/-- C9 (amended): data-bucket validation is fatal at construction time — a missing
`[data]` section raises `NoSectionError`, and a `[data]` entry whose URL directory
part is not exactly `morf-data/` makes construction fail — but a configuration
missing any other required field still constructs unvalidated: `__init__` performs no
required-field validation. -/
theorem morf_job_config_data_validation (cf : ConfigFile) (cpu_count : Nat)
    (md5 : ConfigFile → String) :
    (cf.find? (fun sec => sec.1 == "data") = none →
      MorfJobConfig.init cf cpu_count md5 = .error (.noSectionError "data")) ∧
    (∀ sec, cf.find? (fun sec => sec.1 == "data") = some sec →
      (∃ item ∈ sec.2, get_key_from_url item.2 ≠ .ok "morf-data/") →
      (MorfJobConfig.init cf cpu_count md5).isOk = false) := by
  constructor
  · intro h
    simp only [MorfJobConfig.init, fetch_data_buckets_from_config, h]
  · intro sec hfind hbad
    have hgo := fetch_data_buckets_go_bad "morf-data/" sec.2 [] hbad
    simp only [MorfJobConfig.init, fetch_data_buckets_from_config, hfind]
    cases hres : fetch_data_buckets_go "morf-data/" sec.2 [] with
    | error e => rfl
    | ok buckets =>
      rw [hres] at hgo
      simp [Except.isOk, Except.toBool] at hgo

/-- Witness for `morf_job_config_data_validation`: a config whose `[data]` URL points
at `other-data/` fails to construct. -/
theorem morf_job_config_data_validation_witness :
    (MorfJobConfig.init [("data", [("umich", "s3://morf-bucket/other-data/")])] 4
      (fun _ => "abc")).isOk = false :=
  (morf_job_config_data_validation
      [("data", [("umich", "s3://morf-bucket/other-data/")])] 4 (fun _ => "abc")).2
    ("data", [("umich", "s3://morf-bucket/other-data/")]) (by decide)
    ⟨("umich", "s3://morf-bucket/other-data/"), by decide, by decide⟩

/-! ## Complete-course filter: `fetch_complete_courses` (utils/__init__.py,
lines 223-238)

The course listing of the bucket is modelled as a list of (course, session listing)
pairs.  For each course the function calls `fetch_sessions` twice (training
sessions, then holdout session) with no exception handling, then keeps the
course when `len(testing_session) == 1 and len(training_sessions) >= n_train`.
-/

/-- The course loop of `fetch_complete_courses`. -/
def fetch_complete_courses_go (n_train : Nat) :
    List (String × List String) → List String → Except PyError (List String)
  | [], complete_courses => .ok complete_courses
  | (course, sessions) :: rest, complete_courses =>
    match fetch_sessions sessions false false with
    | .error e => .error e
    | .ok training_sessions =>
      match fetch_sessions sessions true false with
      | .error e => .error e
      | .ok testing_session =>
        if testing_session.length = 1 ∧ n_train ≤ training_sessions.length then
          fetch_complete_courses_go n_train rest (complete_courses ++ [course])
        else
          fetch_complete_courses_go n_train rest complete_courses

/-- `fetch_complete_courses(job_config, data_bucket, data_dir, n_train)` over the
listed courses and their session listings. -/
def fetch_complete_courses (courses : List (String × List String)) (n_train : Nat) :
    Except PyError (List String) :=
  fetch_complete_courses_go n_train courses []

/-- C7 counterexample: a course with zero sessions is not excluded softly — the
`sessions.pop(-1)` inside `fetch_sessions` raises `IndexError` and
`fetch_complete_courses` propagates it instead of returning a result. -/
theorem fetch_complete_courses_raises_on_empty_course :
    fetch_complete_courses [("c0", [])] 1 = .error (.indexError "pop from empty list") ∧
    ∀ result : List String, fetch_complete_courses [("c0", [])] 1 ≠ .ok result := by
  have h : fetch_complete_courses [("c0", [])] 1 =
      .error (.indexError "pop from empty list") := by decide
  exact ⟨h, fun result hr => by rw [h] at hr; cases hr⟩

theorem fetch_complete_courses_go_filter (n_train : Nat) :
    ∀ (courses : List (String × List String)) (acc : List String),
      (∀ p ∈ courses, p.2 ≠ []) →
      fetch_complete_courses_go n_train courses acc =
        .ok (acc ++ (courses.filter (fun p =>
          decide (n_train ≤ ((List.insertionSort sessionLe p.2).dropLast).length))).map
            Prod.fst) := by
  intro courses
  induction courses with
  | nil => intro acc _; simp [fetch_complete_courses_go]
  | cons p rest ih =>
    intro acc h
    obtain ⟨course, sessions⟩ := p
    have hne : sessions ≠ [] := h (course, sessions) (List.mem_cons_self _ _)
    have hsne : List.insertionSort sessionLe sessions ≠ [] := by
      have hl := (List.perm_insertionSort sessionLe sessions).length_eq
      intro hc
      rw [hc] at hl
      exact hne (List.eq_nil_of_length_eq_zero hl.symm)
    rcases List.eq_nil_or_concat (List.insertionSort sessionLe sessions) with hc | ⟨l, x, hdec⟩
    · exact absurd hc hsne
    · rw [List.concat_eq_append] at hdec
      obtain ⟨-, hhold, htrain⟩ := fetch_sessions_parts sessions l x hdec
      have hrest : ∀ q ∈ rest, q.2 ≠ [] := fun q hq => h q (List.mem_cons_of_mem _ hq)
      have hdrop : (List.insertionSort sessionLe sessions).dropLast = l := by
        rw [hdec, List.dropLast_concat]
      by_cases hcond : n_train ≤ l.length
      · have hpred0 : decide (n_train ≤
            ((List.insertionSort sessionLe sessions).dropLast).length) = true := by
          rw [hdrop]
          exact decide_eq_true hcond
        simp only [fetch_complete_courses_go, htrain, hhold]
        rw [if_pos ⟨rfl, hcond⟩, ih (acc ++ [course]) hrest]
        simp only [List.filter_cons, hpred0, if_true, List.map_cons]
        simp [List.append_assoc]
      · have hpred0 : decide (n_train ≤
            ((List.insertionSort sessionLe sessions).dropLast).length) = false := by
          rw [hdrop]
          exact decide_eq_false hcond
        simp only [fetch_complete_courses_go, htrain, hhold]
        rw [if_neg (fun hcontra => hcond hcontra.2), ih acc hrest]
        simp only [List.filter_cons, hpred0]
        simp

/-- C7 (amended): on a bucket in which every listed course has at least one session,
`fetch_complete_courses` returns exactly the courses with at least `n_train` training
sessions (and, automatically, exactly one holdout session) and raises nothing; courses
failing the threshold are excluded without error.  With `n_train = 2`, a course with 1
training session and 1 holdout is excluded while one with 2 training sessions and 1
holdout is included.  A course with zero sessions, however, raises `IndexError`
rather than being excluded. -/
theorem fetch_complete_courses_filter (courses : List (String × List String))
    (n_train : Nat) (h : ∀ p ∈ courses, p.2 ≠ []) :
    fetch_complete_courses courses n_train =
      .ok ((courses.filter (fun p =>
        decide (n_train ≤ ((List.insertionSort sessionLe p.2).dropLast).length))).map
          Prod.fst) ∧
    fetch_complete_courses [("a", ["001", "002"]), ("b", ["001", "002", "003"])] 2 =
      .ok ["b"] := by
  constructor
  · have hgo := fetch_complete_courses_go_filter n_train courses [] h
    simpa [fetch_complete_courses] using hgo
  · decide

/-- Witness for `fetch_complete_courses_filter` at the two-course bucket from the
example of the specification. -/
theorem fetch_complete_courses_filter_witness :
    fetch_complete_courses [("a", ["001", "002"]), ("b", ["001", "002", "003"])] 2 =
      .ok ["b"] :=
  (fetch_complete_courses_filter [("a", ["001", "002"]), ("b", ["001", "002", "003"])] 2
    (by decide)).2
